import Mathlib

/-!
Verification of the task-segmentation and workflow-mining layer of the
synapse-firefox-addon analysis scripts.

The definitions below are a shallow embedding of the Python code in
`scripts/experiment_3_user_study.py` (task segmentation and classification)
and `scripts/experiment_4_workflow_analysis.py` (cross-tab workflow
detection, clipboard chains, efficiency metrics).  Timestamps are integer
milliseconds, as in the CSV input.  Optional CSV columns (url, domain,
tab id, clipboard fields) are `Option` values; a `none` models a pandas
NaN.  Real-valued quantities produced by Python float arithmetic
(durations in seconds, averages, scores) are modelled as rationals.
The input event list is assumed pre-sorted by timestamp, which the code
also assumes (it sorts a pre-sorted frame, a stable no-op).
-/

namespace Synapse

/-- Python `!=` on two possibly-missing (NaN) values, as it behaves on data
read back from pandas: NaN compares unequal to everything, itself included,
so the comparison is `true` unless both values are present and equal. -/
def pdNe {α : Type} [BEq α] : Option α → Option α → Bool
  | some a, some b => a != b
  | _, _ => true

/-- Whether the character list `pat` occurs at the start of `s`. -/
def charsStartWith : List Char → List Char → Bool
  | _, [] => true
  | [], _ :: _ => false
  | c :: cs, p :: ps => c == p && charsStartWith cs ps

/-- Whether the character list `pat` occurs anywhere inside `s`
(Python `pat in s`). -/
def charsContain : List Char → List Char → Bool
  | [], pat => pat.isEmpty
  | c :: cs, pat => charsStartWith (c :: cs) pat || charsContain cs pat

/-- Python `s.lower()` restricted to the character data of a string. -/
def lowerChars (s : String) : List Char := s.data.map Char.toLower

/-- Python `s.startswith(p)`. -/
def strStartsWith (s p : String) : Bool := charsStartWith s.data p.data

/-! ## experiment_3_user_study.py : events and task segmentation -/

/-- One row of the cleaned CSV as consumed by `segment_tasks` and
`classify_task_type`: only the columns those functions read. -/
structure E3Event where
  timestamp : Int
  event_type : String
  action_subtype : Option String
  url : Option String
deriving DecidableEq, Inhabited

/-- Row at position `i` (the frame is pre-sorted, so the positional index
and the pandas index agree). -/
def evAt (log : List E3Event) (i : Nat) : E3Event := log.getD i default

/-- Timestamp (ms) of the row at position `i`. -/
def tsAt (log : List E3Event) (i : Nat) : Int := (evAt log i).timestamp

/-- Rule 1 of `segment_tasks`: the pandas ne of the url column against its shift.
Pandas `ne` against the shifted column is true at index 0 (compared with
NaN) and wherever the url differs from the previous row, NaN comparing
unequal to everything. -/
def navigationBoundaries (log : List E3Event) : List Nat :=
  (List.range log.length).filter fun i =>
    match i with
    | 0 => true
    | j + 1 => pdNe (evAt log (j + 1)).url (evAt log j).url

/-- Rule 2 of `segment_tasks`: the indices of rows whose `event_type` is
`user_action_form_submit`.  The boundary sits at the index of the
form-submit event itself. -/
def formSubmitBoundaries (log : List E3Event) : List Nat :=
  (List.range log.length).filter fun i =>
    (evAt log i).event_type == "user_action_form_submit"

/-- Rule 3 of `segment_tasks`: a time_since_last value above 30, i.e. the
gap to the previous row strictly exceeds 30 s (30000 ms); the first row has
a NaN gap, and NaN > 30 is false. -/
def longPauseBoundaries (log : List E3Event) : List Nat :=
  (List.range log.length).filter fun i =>
    match i with
    | 0 => false
    | j + 1 => decide (30000 < tsAt log (j + 1) - tsAt log j)

/-- The keyword list of `identify_task_start_pages`. -/
def taskStartPatterns : List String :=
  ["dashboard", "home", "main", "index",
   "task", "assignment", "work",
   "new", "create", "add",
   "login", "signin", "auth"]

/-- Whether a (non-null) url matches `identify_task_start_pages`:
some pattern is a substring of the lower-cased url. -/
def urlMatchesTaskStart (u : String) : Bool :=
  taskStartPatterns.any fun p => charsContain (lowerChars u) p.data

/-- Rule 4 of `segment_tasks`: rows whose url is one of the task-start
urls.  `identify_task_start_pages` drops NaN urls first, so a missing url
never matches. -/
def taskStartUrlBoundaries (log : List E3Event) : List Nat :=
  (List.range log.length).filter fun i =>
    match (evAt log i).url with
    | some u => urlMatchesTaskStart u
    | none => false

/-- Behavioral rule (1) of `detect_behavioral_task_boundaries`: for each
`text_input` row, the first later `click` row within 5 s. -/
def searchClickBoundaries (log : List E3Event) : List Nat :=
  ((List.range log.length).filter fun i =>
      (evAt log i).action_subtype == some "text_input").flatMap fun idx =>
    (((List.range log.length).filter fun j =>
        decide (idx < j) && decide (tsAt log j ≤ tsAt log idx + 5000) &&
          ((evAt log j).action_subtype == some "click")).head?).toList

/-- Behavioral rule (2): every `user_action_clipboard` row. -/
def clipboardEventBoundaries (log : List E3Event) : List Nat :=
  (List.range log.length).filter fun i =>
    (evAt log i).event_type == "user_action_clipboard"

/-- Gap under 2 s between the k-th click row and its predecessor in the
click subsequence; position 0 has a NaN gap and NaN < 2 is false. -/
def rapidClick (log : List E3Event) (clicks : List Nat) : Nat → Bool
  | 0 => false
  | j + 1 =>
    decide (tsAt log (clicks.getD (j + 1) 0) - tsAt log (clicks.getD j 0) < 2000)

/-- Behavioral rule (3): the click ending a rapid-click run, i.e. the k-th
click (k > 0) whose own gap is not rapid while the previous gap was. -/
def rapidClickEndBoundaries (log : List E3Event) : List Nat :=
  let clicks := (List.range log.length).filter fun i =>
    (evAt log i).action_subtype == some "click"
  if 1 < clicks.length then
    ((List.range clicks.length).filter fun k =>
      match k with
      | 0 => false
      | j + 1 => !(rapidClick log clicks (j + 1)) && rapidClick log clicks j).map
      fun k => clicks.getD k 0
  else []

/-- All candidate boundaries of `segment_tasks`, before the `set` union:
the concatenation of the five rules (rule 5 contributing its three
sub-rules). -/
def taskBoundaryList (log : List E3Event) : List Nat :=
  navigationBoundaries log ++ formSubmitBoundaries log ++
  longPauseBoundaries log ++ taskStartUrlBoundaries log ++
  searchClickBoundaries log ++ clipboardEventBoundaries log ++
  rapidClickEndBoundaries log

/-- `sorted(task_boundaries)` where `task_boundaries` is a Python set: the
duplicate-free candidate list in ascending order. -/
def mergedBoundaries (log : List E3Event) : List Nat :=
  (taskBoundaryList log).dedup.insertionSort (· ≤ ·)

/-- A task segment: sequential id and a half-open index interval
`[start, stop)` over the event log. -/
structure Task where
  id : Nat
  start : Nat
  stop : Nat
deriving DecidableEq

/-- The boundary walk of `segment_tasks`: for each boundary `b`, if
`b > last_boundary` the rows `[last_boundary, b)` become one task and the
task counter advances; `last_boundary` then moves to `b`.  After the walk
the tail `[last_boundary, n)` becomes the final task when non-empty. -/
def assembleAux (n : Nat) : List Nat → Nat → Nat → List Task
  | [], last, tid => if last < n then [⟨tid, last, n⟩] else []
  | b :: bs, last, tid =>
    if last < b then ⟨tid, last, b⟩ :: assembleAux n bs b (tid + 1)
    else assembleAux n bs b tid

/-- Task assembly from a sorted boundary list over a log of length `n`. -/
def assembleTasks (n : Nat) (bs : List Nat) : List Task := assembleAux n bs 0 0

/-- `segment_tasks`: merge the boundary rules and assemble the tasks. -/
def segment_tasks (log : List E3Event) : List Task :=
  assembleTasks log.length (mergedBoundaries log)

/-! ## experiment_3_user_study.py : task classification -/

/-- Rows of the task whose action subtype is click. -/
def clickCount (task : List E3Event) : Nat :=
  (task.filter fun e => e.action_subtype == some "click").length

/-- Rows of the task whose action subtype is text_input. -/
def inputCount (task : List E3Event) : Nat :=
  (task.filter fun e => e.action_subtype == some "text_input").length

/-- Rows of the task whose event type is user_action_form_submit. -/
def formSubmitCount (task : List E3Event) : Nat :=
  (task.filter fun e => e.event_type == "user_action_form_submit").length

/-- The nunique of the url column: distinct non-null urls of the task. -/
def uniqueUrlCount (task : List E3Event) : Nat :=
  (task.filterMap (fun e => e.url)).dedup.length

/-- `classify_task_type`: the if/elif chain over the aggregate counts. -/
def classify_task_type (task : List E3Event) : String :=
  if 0 < formSubmitCount task then "form_submission"
  else if clickCount task < inputCount task then "data_entry"
  else if 3 < uniqueUrlCount task then "browsing_navigation"
  else if 5 < clickCount task ∧ inputCount task = 0 then "pure_navigation"
  else if 0 < inputCount task ∧ 0 < clickCount task then "search_and_select"
  else "general_interaction"

/-- The aggregate features a task is classified by. -/
structure TaskCounts where
  clicks : Nat
  inputs : Nat
  forms : Nat
  urls : Nat

/-- The features of a concrete task. -/
def taskCounts (task : List E3Event) : TaskCounts :=
  ⟨clickCount task, inputCount task, formSubmitCount task, uniqueUrlCount task⟩

/-- The classifier rule list as an ordered data structure of
(predicate, label) pairs, in the order of the if/elif chain. -/
def classifierRules : List ((TaskCounts → Bool) × String) :=
  [(fun c => decide (0 < c.forms), "form_submission"),
   (fun c => decide (c.clicks < c.inputs), "data_entry"),
   (fun c => decide (3 < c.urls), "browsing_navigation"),
   (fun c => decide (5 < c.clicks ∧ c.inputs = 0), "pure_navigation"),
   (fun c => decide (0 < c.inputs ∧ 0 < c.clicks), "search_and_select")]

/-- First-match-wins evaluation of an ordered rule list, defaulting to
`general_interaction`. -/
def firstMatchLabel : List ((TaskCounts → Bool) × String) → TaskCounts → String
  | [], _ => "general_interaction"
  | r :: rs, c => if r.1 c then r.2 else firstMatchLabel rs c

/-! ## experiment_4_workflow_analysis.py : events and workflow detection -/

/-- One row of the cleaned CSV as consumed by the workflow analysis: the
columns read by `prepare_data`, `detect_cross_tab_workflows`,
`analyze_clipboard_enhancement` and `detect_clipboard_chains`. -/
structure E4Event where
  timestamp : Int
  event_type : String
  tab_id : Option Int
  action_subtype : String
  clipboard_operation : Option String
  domain : Option String
  clipboard_text_length : Option Int
deriving DecidableEq, Inhabited

/-- The `prepare_data` filter for workflow-relevant rows. -/
def workflowRelevant (e : E4Event) : Bool :=
  strStartsWith e.event_type "ui." || strStartsWith e.event_type "browser.tab." ||
    (e.event_type == "ui.clipboard")

/-- The dictionary appended to `current_sequence` for each event (the
diagnostic passthrough keys selector, parent_tab_id and is_new_tab_event
are stored but never read afterwards and are omitted here). -/
structure SeqItem where
  event_type : String
  tab_id : Option Int
  action_subtype : String
  timestamp : Int
deriving DecidableEq, Inhabited

/-- The projection of an event into a sequence item. -/
def toSeqItem (e : E4Event) : SeqItem :=
  ⟨e.event_type, e.tab_id, e.action_subtype, e.timestamp⟩

/-- An emitted cross-tab workflow record. -/
structure Workflow where
  sequence : List SeqItem
  length : Nat
  tab_switches : Nat
  duration : ℚ
  unique_tabs : Nat
deriving DecidableEq

/-- The workflow record built at emission time: length of the sequence,
the accumulated switch count, duration in seconds, and the size of the
set of truthy tab ids.  A tab id of 0 is falsy and skipped; a missing
tab id is a NaN float, which is truthy, and the NaN objects boxed from
the rows are pairwise distinct set members (NaN is unequal to itself),
so every missing tab id counts separately while equal numeric ids
collapse. -/
def mkWorkflow (seq : List SeqItem) (switches : Nat) : Workflow :=
  { sequence := seq
    length := seq.length
    tab_switches := switches
    duration :=
      (((seq.getLastD default).timestamp - (seq.headD default).timestamp : Int) : ℚ) / 1000
    unique_tabs :=
      let truthy := (seq.map fun s => s.tab_id).filter fun t => t != some 0
      truthy.count none + (truthy.filterMap id).dedup.length }

/-- The loop state of `detect_cross_tab_workflows`. -/
structure DetectState where
  workflows : List Workflow
  currentSequence : List SeqItem
  lastTimestamp : Option Int
  tabSwitches : Nat

/-- The emission rule, shared by the in-loop flush and the final flush:
a candidate is kept only when it has at least `minLength` events and at
least one tab switch. -/
def flushEmit (minLength : Nat) (st : DetectState) : List Workflow :=
  if minLength ≤ st.currentSequence.length ∧ 0 < st.tabSwitches then
    st.workflows ++ [mkWorkflow st.currentSequence st.tabSwitches]
  else st.workflows

/-- One iteration of the scan: append to the current sequence while the
gap from the previous event is at most `maxGapSeconds` (counting a tab
switch whenever the two newest items have differing tab ids, NaN ids
comparing unequal), otherwise flush and restart from the current event. -/
def detectStep (minLength : Nat) (maxGapSeconds : Int) (st : DetectState)
    (e : E4Event) : DetectState :=
  let keepGoing :=
    match st.lastTimestamp with
    | none => true
    | some lt => decide (e.timestamp - lt ≤ maxGapSeconds * 1000)
  if keepGoing then
    let newSeq := st.currentSequence ++ [toSeqItem e]
    let newSwitches :=
      match st.currentSequence.getLast? with
      | some prev => if pdNe e.tab_id prev.tab_id then st.tabSwitches + 1 else st.tabSwitches
      | none => st.tabSwitches
    { st with currentSequence := newSeq, tabSwitches := newSwitches,
              lastTimestamp := some e.timestamp }
  else
    { workflows := flushEmit minLength st
      currentSequence := [toSeqItem e]
      lastTimestamp := some e.timestamp
      tabSwitches := 0 }

/-- `detect_cross_tab_workflows` over the (already filtered) relevant
events: the forward scan followed by the final flush. -/
def detect_cross_tab_workflows (events : List E4Event) (minLength : Nat)
    (maxGapSeconds : Int) : List Workflow :=
  flushEmit minLength (events.foldl (detectStep minLength maxGapSeconds) ⟨[], [], none, 0⟩)

/-! ## experiment_4_workflow_analysis.py : clipboard chains -/

/-- One emitted copy-to-paste chain. -/
structure ClipboardChain where
  copy_time : Int
  paste_time : Int
  duration : ℚ
  copy_domain : Option String
  paste_domain : Option String
  cross_domain : Bool
  text_length : Option Int
deriving DecidableEq

/-- The window test of `detect_clipboard_chains`: the paste is strictly
later than the copy and at most `maxGapMinutes` minutes after it. -/
def qualifiesPaste (copyEv : E4Event) (maxGapMinutes : Int) (p : E4Event) : Bool :=
  decide (copyEv.timestamp < p.timestamp) &&
    decide (p.timestamp ≤ copyEv.timestamp + maxGapMinutes * 60000)

/-- The chain record for one qualifying copy/paste pair; `cross_domain`
is the raw Python `!=` of the two domain values, so two NaN domains
compare unequal. -/
def mkChain (copyEv pasteEv : E4Event) : ClipboardChain :=
  { copy_time := copyEv.timestamp
    paste_time := pasteEv.timestamp
    duration := ((pasteEv.timestamp - copyEv.timestamp : Int) : ℚ) / 1000
    copy_domain := copyEv.domain
    paste_domain := pasteEv.domain
    cross_domain := pdNe copyEv.domain pasteEv.domain
    text_length := copyEv.clipboard_text_length }

/-- `detect_clipboard_chains`: one chain per copy event and qualifying
paste event, copies outermost, pastes in log order within each copy. -/
def detect_clipboard_chains (clipboardEvents : List E4Event)
    (maxGapMinutes : Int) : List ClipboardChain :=
  let copyEvents := clipboardEvents.filter fun e => e.clipboard_operation == some "copy"
  let pasteEvents := clipboardEvents.filter fun e => e.clipboard_operation == some "paste"
  copyEvents.flatMap fun c =>
    (pasteEvents.filter (qualifiesPaste c maxGapMinutes)).map (mkChain c)

/-! ## experiment_4_workflow_analysis.py : clipboard statistics -/

/-- `np.mean` of a list of rationals. -/
def meanQ (l : List ℚ) : ℚ := l.sum / l.length

/-- pandas `Series.max` of a non-empty list. -/
def maxQ (l : List ℚ) : ℚ := l.foldl max (l.headD 0)

/-- pandas `Series.median` of a non-empty list. -/
def medianQ (l : List ℚ) : ℚ :=
  let s := l.insertionSort (· ≤ ·)
  if s.length % 2 = 1 then s.getD (s.length / 2) 0
  else (s.getD (s.length / 2 - 1) 0 + s.getD (s.length / 2) 0) / 2

/-- The statistics dictionary of `analyze_clipboard_enhancement`; the
keys only set under a condition are `Option` fields. -/
structure ClipStats where
  total_operations : Nat
  copy_operations : Nat
  paste_operations : Nat
  cut_operations : Nat
  cross_domain_copies : Option Nat
  avg_text_length : Option ℚ
  median_text_length : Option ℚ
  max_text_length : Option ℚ
  clipboard_chains : Nat
  avg_chain_duration : ℚ
deriving DecidableEq

/-- `analyze_clipboard_enhancement`: `none` models the early `return {}`
when there are no `ui.clipboard` rows.  `cross_domain_copies` is the
number of distinct non-null copy domains (`nunique`); the text-length
statistics are only present when some copy row has a non-null
`clipboard_text_length`. -/
def analyze_clipboard_enhancement (events : List E4Event) : Option ClipStats :=
  let clipboard := events.filter fun e => e.event_type == "ui.clipboard"
  if clipboard.length = 0 then none
  else
    let copies := clipboard.filter fun e => e.clipboard_operation == some "copy"
    let textLens := (copies.filterMap fun e => e.clipboard_text_length).map
      fun v => (v : ℚ)
    let chains := detect_clipboard_chains clipboard 10
    some
      { total_operations := clipboard.length
        copy_operations := copies.length
        paste_operations :=
          (clipboard.filter fun e => e.clipboard_operation == some "paste").length
        cut_operations :=
          (clipboard.filter fun e => e.clipboard_operation == some "cut").length
        cross_domain_copies :=
          if 0 < copies.length then
            some ((copies.filterMap fun e => e.domain).dedup.length)
          else none
        avg_text_length :=
          if 0 < copies.length ∧ 0 < textLens.length then some (meanQ textLens) else none
        median_text_length :=
          if 0 < copies.length ∧ 0 < textLens.length then some (medianQ textLens) else none
        max_text_length :=
          if 0 < copies.length ∧ 0 < textLens.length then some (maxQ textLens) else none
        clipboard_chains := chains.length
        avg_chain_duration :=
          if chains.length = 0 then 0 else meanQ (chains.map fun c => c.duration) }

/-! ## experiment_4_workflow_analysis.py : efficiency analysis -/

/-- The signature of a workflow: the join, with arrow separators, of the
action subtypes of its sequence. -/
def patternSignature (w : Workflow) : String :=
  "->".intercalate (w.sequence.map fun s => s.action_subtype)

/-- `Counter.most_common(1)[0]`: the earliest-first-occurring signature
with the maximal frequency, paired with that frequency. -/
def mostCommon (sigs : List String) : Option (String × Nat) :=
  ((sigs.dedup).map fun s => (s, sigs.count s)).foldl
    (fun acc p =>
      match acc with
      | none => some p
      | some q => if q.2 < p.2 then some p else some q) none

/-- The dictionary returned by `analyze_workflow_efficiency`. -/
structure Efficiency where
  total_workflows : Nat
  avg_workflow_length : ℚ
  avg_workflow_duration : ℚ
  avg_tab_switches : ℚ
  automation_potential_events : Int
  time_saving_potential : ℚ
  unique_patterns : Nat
  repeated_patterns : Nat
  most_common_pattern : Option (String × Nat)
  repeatability_score : ℚ
deriving DecidableEq

/-- `analyze_workflow_efficiency`: `none` models the early `return {}`
when no workflows were detected.  The 0.7 in `time_saving_potential` is
the literal constant of the source; the guard of `repeatability_score`
mirrors the `if pattern_frequency else 0` conditional of the source,
which is only reachable with a non-empty signature list. -/
def analyze_workflow_efficiency (ws : List Workflow) : Option Efficiency :=
  if ws.isEmpty then none
  else
    let lengths : List ℕ := ws.map fun w => w.length
    let durations : List ℚ := ws.map fun w => w.duration
    let switches : List ℕ := ws.map fun w => w.tab_switches
    let sigs := ws.map patternSignature
    let uniq := sigs.dedup
    let repeated := uniq.filter fun s => 1 < sigs.count s
    some
      { total_workflows := ws.length
        avg_workflow_length := ((lengths.map fun x => (x : ℚ)).sum) / ws.length
        avg_workflow_duration := durations.sum / ws.length
        avg_tab_switches := ((switches.map fun x => (x : ℚ)).sum) / ws.length
        automation_potential_events := ((lengths.sum : ℕ) : Int) - (ws.length : Int)
        time_saving_potential := durations.sum * (7 / 10)
        unique_patterns := uniq.length
        repeated_patterns := repeated.length
        most_common_pattern := mostCommon sigs
        repeatability_score :=
          if sigs.isEmpty then 0 else (repeated.length : ℚ) / (uniq.length : ℚ) }

/-- Modelled from the spec: `timeSavingPotential = sum(workflow
durations) * reductionFactor` with `reductionFactor` an exposed
configuration parameter (`automationReductionFactor`, default 0.7).
The source has no such parameter; this definition exists to compare the
claimed configurable formula with the code. -/
def timeSavingPotential_spec (r : ℚ) (ws : List Workflow) : ℚ :=
  (ws.map fun w => w.duration).sum * r

/-! ## experiment_4_workflow_analysis.py : run_analysis -/

/-- The message of the Python AttributeError raised when an attribute
lookup on the experiment object finds no definition. -/
def attributeError (name : String) : String :=
  "AttributeError: " ++ name

/-- The method names the WorkflowAnalysisExperiment class defines, in
source order.  A method call on the experiment object resolves exactly
when its name is in this list; in particular
discover_high_order_patterns and print_discovered_patterns_report,
which run_analysis calls, are absent — they are defined nowhere in the
repository. -/
def experimentMethods : List String :=
  ["__init__", "prepare_data", "detect_cross_tab_workflows",
   "analyze_clipboard_enhancement", "detect_clipboard_chains",
   "analyze_workflow_efficiency", "run_analysis",
   "print_analysis_summary", "save_results", "create_visualizations"]

/-- The result dictionary that the tail of `run_analysis` would
assemble.  This assembly is dead code: the AttributeError raised by the
high-order step precedes it on every run.  Its `high_order_patterns`
sub-dictionary is not embedded because its values are reads of
attributes (`discovered_patterns`, `semantic_patterns`) that no code in
the repository ever assigns, so there is no source to embed for them.
`analysis_timestamp` records `datetime.now()` at run time, modelled by
the explicit `now` input. -/
structure Results where
  workflow_patterns : Nat
  clipboard_enhancement : Option ClipStats
  efficiency_analysis : Option Efficiency
  analysis_timestamp : Int
deriving DecidableEq

/-- `run_analysis`: step 1 detects workflows over the relevant rows with
the default thresholds and step 2 analyzes the clipboard; step 2.5 then
calls `discover_high_order_patterns`, a method the class does not
define, so every run raises AttributeError there and the efficiency
analysis and result assembly below the call never execute.  The failed
attribute lookup is modelled by membership in the defined-method table;
the `Except.ok` branch embeds the dead result assembly and is
unreachable. -/
def run_analysis (events : List E4Event) (now : Int) : Except String Results :=
  let workflows := detect_cross_tab_workflows (events.filter workflowRelevant) 3 30
  let clipboardStats := analyze_clipboard_enhancement events
  if experimentMethods.contains "discover_high_order_patterns" then
    Except.ok
      { workflow_patterns := workflows.length
        clipboard_enhancement := clipboardStats
        efficiency_analysis := analyze_workflow_efficiency workflows
        analysis_timestamp := now }
  else Except.error (attributeError "discover_high_order_patterns")

/-! ## Derived predicates and concrete inputs used by the theorems -/

/-- The partition properties of a task list over indices `[0, n)`:
no degenerate interval, every index covered by exactly one task,
consecutive tasks adjacent, and ids sequential from 0. -/
def IsPartitionOf (tasks : List Task) (n : Nat) : Prop :=
  (∀ t ∈ tasks, t.start < t.stop) ∧
  (∀ i : Nat, tasks.countP (fun t => decide (t.start ≤ i ∧ i < t.stop)) =
    if i < n then 1 else 0) ∧
  List.Chain' (fun a b => a.stop = b.start) tasks ∧
  tasks.map Task.id = List.range tasks.length

/-- The emission invariant: a well-formed workflow has at least
`minLength` events, at least one tab switch, and its stored length is
the length of its sequence. -/
def WfOK (minLength : Nat) (w : Workflow) : Prop :=
  minLength ≤ w.length ∧ 1 ≤ w.tab_switches ∧ w.length = w.sequence.length

/-- A log with a click, a form submission and a further click, 1 s
apart, on one url. -/
def formLog : List E3Event :=
  [⟨0, "x", some "click", some "u"⟩,
   ⟨1000, "user_action_form_submit", none, some "u"⟩,
   ⟨2000, "x", some "click", some "u"⟩]

/-- Two events 31000 ms apart on one url. -/
def gap31Log : List E3Event :=
  [⟨0, "x", none, some "u"⟩, ⟨31000, "x", none, some "u"⟩]

/-- Two events 30000 ms apart on one url. -/
def gap30Log : List E3Event :=
  [⟨0, "x", none, some "u"⟩, ⟨30000, "x", none, some "u"⟩]

/-- A task with four distinct urls and no clicks, inputs or form
submissions. -/
def urlOnlyTask : List E3Event :=
  [⟨0, "x", none, some "a"⟩, ⟨1000, "x", none, some "b"⟩,
   ⟨2000, "x", none, some "c"⟩, ⟨3000, "x", none, some "d"⟩]

/-- Scenario A of the spec: three relevant events bouncing between two
tabs, 5 s apart. -/
def scenA : List E4Event :=
  [⟨0, "ui.click", some 1, "click", none, none, none⟩,
   ⟨5000, "ui.click", some 2, "click", none, none, none⟩,
   ⟨10000, "ui.click", some 1, "click", none, none, none⟩]

/-- The single workflow detected in scenario A. -/
def wfA : Workflow :=
  mkWorkflow (scenA.map toSeqItem) 2

/-- Scenario B of the spec: a copy on domain x at t=0, a paste on
domain y at t=60000 and a paste on domain x at t=700000. -/
def scenB : List E4Event :=
  [⟨0, "ui.clipboard", some 1, "copy", some "copy", some "x", some 5⟩,
   ⟨60000, "ui.clipboard", some 1, "paste", some "paste", some "y", none⟩,
   ⟨700000, "ui.clipboard", some 1, "paste", some "paste", some "x", none⟩]

/-- The single chain of scenario B. -/
def chainB : ClipboardChain :=
  mkChain (scenB.getD 0 default) (scenB.getD 1 default)

/-- A copy and a paste 1 s apart, both with a missing domain. -/
def noDomLog : List E4Event :=
  [⟨0, "ui.clipboard", some 1, "copy", some "copy", none, none⟩,
   ⟨1000, "ui.clipboard", some 1, "paste", some "paste", none, none⟩]

/-- The chain produced by the missing-domain pair. -/
def chainND : ClipboardChain :=
  mkChain (noDomLog.getD 0 default) (noDomLog.getD 1 default)

/-- A workflow whose duration is 10 s, with two clicks on two tabs. -/
def wEx : Workflow :=
  ⟨[⟨"ui.click", some 1, "click", 0⟩, ⟨"ui.click", some 2, "click", 10000⟩],
   2, 1, 10, 2⟩

/-- A workflow with signature a->b. -/
def wfSigA : Workflow :=
  ⟨[⟨"ui.x", some 1, "a", 0⟩, ⟨"ui.x", some 2, "b", 1000⟩], 2, 1, 1, 2⟩

/-- A workflow with signature c. -/
def wfSigB : Workflow :=
  ⟨[⟨"ui.x", some 1, "c", 0⟩], 1, 1, 0, 1⟩

/-- A workflow with signature d. -/
def wfSigC : Workflow :=
  ⟨[⟨"ui.x", some 1, "d", 0⟩], 1, 1, 0, 1⟩

/-- Three workflows with one shared signature plus two with distinct
signatures. -/
def c9Workflows : List Workflow :=
  [wfSigA, wfSigA, wfSigA, wfSigB, wfSigC]

/-! ## Lemmas on task assembly -/

theorem assembleAux_countP (n i : Nat) (bs : List Nat) :
    ∀ last tid, bs.Sorted (· ≤ ·) → (∀ b ∈ bs, last ≤ b) → (∀ b ∈ bs, b < n) →
    last ≤ n →
    (assembleAux n bs last tid).countP (fun t => decide (t.start ≤ i ∧ i < t.stop)) =
      if last ≤ i ∧ i < n then 1 else 0 := by
  induction bs with
  | nil =>
    intro last tid _ _ _ hln
    by_cases h : last < n
    · simp only [assembleAux, if_pos h, List.countP_cons, List.countP_nil]
      simp only [decide_eq_true_eq]
      split_ifs <;> omega
    · simp only [assembleAux, if_neg h, List.countP_nil]
      rw [if_neg (by omega)]
  | cons b bs ih =>
    intro last tid hs hlb hub hln
    obtain ⟨hball, hsTail⟩ := List.sorted_cons.mp hs
    have hlastb : last ≤ b := hlb b (List.mem_cons_self b bs)
    have hbn : b < n := hub b (List.mem_cons_self b bs)
    have hubTail : ∀ x ∈ bs, x < n := fun x hx => hub x (List.mem_cons_of_mem b hx)
    by_cases h : last < b
    · simp only [assembleAux, if_pos h, List.countP_cons]
      rw [ih b (tid + 1) hsTail hball hubTail (Nat.le_of_lt hbn)]
      simp only [decide_eq_true_eq]
      split_ifs <;> omega
    · have hbe : b = last := Nat.le_antisymm (Nat.le_of_not_lt h) hlastb
      simp only [assembleAux, if_neg h]
      rw [ih b tid hsTail hball hubTail (Nat.le_of_lt hbn), hbe]

theorem assembleAux_pos (n : Nat) (bs : List Nat) :
    ∀ last tid, ∀ t ∈ assembleAux n bs last tid, t.start < t.stop := by
  induction bs with
  | nil =>
    intro last tid t ht
    simp only [assembleAux] at ht
    split at ht
    · simp only [List.mem_singleton] at ht
      subst ht
      assumption
    · simp at ht
  | cons b bs ih =>
    intro last tid t ht
    simp only [assembleAux] at ht
    split at ht
    · rcases List.mem_cons.mp ht with rfl | hmem
      · assumption
      · exact ih b (tid + 1) t hmem
    · exact ih b tid t ht

theorem assembleAux_head (n : Nat) (bs : List Nat) :
    ∀ last tid, bs.Sorted (· ≤ ·) → (∀ b ∈ bs, last ≤ b) →
    ∀ t ∈ (assembleAux n bs last tid).head?, t.start = last := by
  induction bs with
  | nil =>
    intro last tid _ _ t ht
    simp only [assembleAux] at ht
    split at ht
    · simp only [List.head?_cons, Option.mem_some_iff] at ht
      subst ht
      rfl
    · simp at ht
  | cons b bs ih =>
    intro last tid hs hlb t ht
    obtain ⟨hball, hsTail⟩ := List.sorted_cons.mp hs
    have hlastb : last ≤ b := hlb b (List.mem_cons_self b bs)
    simp only [assembleAux] at ht
    split at ht
    · simp only [List.head?_cons, Option.mem_some_iff] at ht
      subst ht
      rfl
    · have hbe : b = last := Nat.le_antisymm (Nat.le_of_not_lt (by assumption)) hlastb
      have := ih b tid hsTail hball t ht
      omega

theorem assembleAux_chain (n : Nat) (bs : List Nat) :
    ∀ last tid, bs.Sorted (· ≤ ·) → (∀ b ∈ bs, last ≤ b) →
    List.Chain' (fun a b => a.stop = b.start) (assembleAux n bs last tid) := by
  induction bs with
  | nil =>
    intro last tid _ _
    simp only [assembleAux]
    split
    · exact List.chain'_singleton _
    · exact List.chain'_nil
  | cons b bs ih =>
    intro last tid hs hlb
    obtain ⟨hball, hsTail⟩ := List.sorted_cons.mp hs
    simp only [assembleAux]
    split
    · refine List.chain'_cons'.mpr ⟨?_, ih b (tid + 1) hsTail hball⟩
      intro y hy
      exact (assembleAux_head n bs b (tid + 1) hsTail hball y hy).symm
    · exact ih b tid hsTail hball

theorem assembleAux_ids (n : Nat) (bs : List Nat) :
    ∀ last tid, (assembleAux n bs last tid).map Task.id =
      List.range' tid (assembleAux n bs last tid).length := by
  induction bs with
  | nil =>
    intro last tid
    simp only [assembleAux]
    split <;> simp [List.range'_succ]
  | cons b bs ih =>
    intro last tid
    simp only [assembleAux]
    split
    · simp only [List.map_cons, List.length_cons, List.range'_succ]
      rw [ih b (tid + 1)]
    · exact ih b tid

theorem assembleTasks_partition (n : Nat) (bs : List Nat)
    (hs : bs.Sorted (· ≤ ·)) (hub : ∀ b ∈ bs, b < n) :
    IsPartitionOf (assembleTasks n bs) n := by
  refine ⟨assembleAux_pos n bs 0 0, ?_, ?_, ?_⟩
  · intro i
    rw [assembleTasks, assembleAux_countP n i bs 0 0 hs (fun b _ => Nat.zero_le b) hub
      (Nat.zero_le n)]
    simp
  · exact assembleAux_chain n bs 0 0 hs (fun b _ => Nat.zero_le b)
  · rw [assembleTasks, assembleAux_ids n bs 0 0, List.range_eq_range']

theorem taskBoundaryList_lt (log : List E3Event) :
    ∀ b ∈ taskBoundaryList log, b < log.length := by
  intro b hb
  simp only [taskBoundaryList, List.mem_append] at hb
  rcases hb with ((((((h | h) | h) | h) | h) | h) | h)
  · exact List.mem_range.mp (List.mem_filter.mp h).1
  · exact List.mem_range.mp (List.mem_filter.mp h).1
  · exact List.mem_range.mp (List.mem_filter.mp h).1
  · exact List.mem_range.mp (List.mem_filter.mp h).1
  · simp only [searchClickBoundaries, List.mem_flatMap] at h
    obtain ⟨idx, _, hmem⟩ := h
    rw [Option.mem_toList] at hmem
    have hb' := List.mem_of_mem_head? hmem
    exact List.mem_range.mp (List.mem_filter.mp hb').1
  · exact List.mem_range.mp (List.mem_filter.mp h).1
  · simp only [rapidClickEndBoundaries] at h
    split at h
    · simp only [List.mem_map] at h
      obtain ⟨k, hk, rfl⟩ := h
      have hkl : k < _ := List.mem_range.mp (List.mem_filter.mp hk).1
      rw [List.getD_eq_getElem _ 0 hkl]
      have hmem := List.getElem_mem hkl
      exact List.mem_range.mp (List.mem_filter.mp hmem).1
    · simp at h

theorem mergedBoundaries_sorted (log : List E3Event) :
    (mergedBoundaries log).Sorted (· ≤ ·) :=
  List.sorted_insertionSort _ _

theorem mergedBoundaries_lt (log : List E3Event) :
    ∀ b ∈ mergedBoundaries log, b < log.length := by
  intro b hb
  rw [mergedBoundaries] at hb
  have := ((List.perm_insertionSort (· ≤ ·) _).mem_iff).mp hb
  exact taskBoundaryList_lt log b (List.mem_dedup.mp this)

theorem mem_mergedBoundaries (log : List E3Event) (b : Nat)
    (h : b ∈ taskBoundaryList log) : b ∈ mergedBoundaries log := by
  rw [mergedBoundaries, (List.perm_insertionSort (· ≤ ·) _).mem_iff]
  exact List.mem_dedup.mpr h

theorem assembleAux_cons_of_lt (n : Nat) (bs : List Nat) :
    ∀ last tid, bs.Sorted (· ≤ ·) → (∀ x ∈ bs, last ≤ x) → (∀ x ∈ bs, x < n) →
    last < n →
    ∃ t ts, assembleAux n bs last tid = t :: ts ∧ t.start = last := by
  induction bs with
  | nil =>
    intro last tid _ _ _ hln
    exact ⟨⟨tid, last, n⟩, [], by simp [assembleAux, hln], rfl⟩
  | cons b bs ih =>
    intro last tid hs hlb hub hln
    obtain ⟨hball, hsTail⟩ := List.sorted_cons.mp hs
    have hlastb : last ≤ b := hlb b (List.mem_cons_self b bs)
    have hbn : b < n := hub b (List.mem_cons_self b bs)
    have hubTail : ∀ x ∈ bs, x < n := fun x hx => hub x (List.mem_cons_of_mem b hx)
    by_cases h : last < b
    · exact ⟨⟨tid, last, b⟩, assembleAux n bs b (tid + 1), by simp [assembleAux, h], rfl⟩
    · have hbe : b = last := Nat.le_antisymm (Nat.le_of_not_lt h) hlastb
      obtain ⟨t, ts, heq, hstart⟩ := ih b tid hsTail hball hubTail hbn
      exact ⟨t, ts, by simp [assembleAux, h, heq], by omega⟩

theorem assembleAux_boundary_start (n : Nat) (bs : List Nat) :
    ∀ last tid, bs.Sorted (· ≤ ·) → (∀ x ∈ bs, last ≤ x) → (∀ x ∈ bs, x < n) →
    ∀ b ∈ bs, ∃ t ∈ assembleAux n bs last tid, t.start = b := by
  induction bs with
  | nil => intro last tid _ _ _ b hb; simp at hb
  | cons b' bs ih =>
    intro last tid hs hlb hub b hb
    obtain ⟨hball, hsTail⟩ := List.sorted_cons.mp hs
    have hlastb : last ≤ b' := hlb b' (List.mem_cons_self b' bs)
    have hbn : b' < n := hub b' (List.mem_cons_self b' bs)
    have hubTail : ∀ x ∈ bs, x < n := fun x hx => hub x (List.mem_cons_of_mem b' hx)
    rcases List.mem_cons.mp hb with rfl | hbTail
    · by_cases h : last < b
      · obtain ⟨t, ts, heq, hstart⟩ :=
          assembleAux_cons_of_lt n bs b (tid + 1) hsTail hball hubTail hbn
        refine ⟨t, ?_, hstart⟩
        simp [assembleAux, h, heq]
      · have hbe : b = last := Nat.le_antisymm (Nat.le_of_not_lt h) hlastb
        obtain ⟨t, ts, heq, hstart⟩ :=
          assembleAux_cons_of_lt n bs b tid hsTail hball hubTail hbn
        refine ⟨t, ?_, by omega⟩
        simp [assembleAux, h, heq]
    · by_cases h : last < b'
      · obtain ⟨t, ht, hstart⟩ := ih b' (tid + 1) hsTail hball hubTail b hbTail
        refine ⟨t, ?_, hstart⟩
        simp only [assembleAux, if_pos h]
        exact List.mem_cons_of_mem _ ht
      · obtain ⟨t, ht, hstart⟩ := ih b' tid hsTail hball hubTail b hbTail
        refine ⟨t, ?_, hstart⟩
        simp only [assembleAux, if_neg h]
        exact ht

/-! ## Lemmas on workflow detection -/

theorem flushEmit_ok (minLength : Nat) (st : DetectState)
    (h : ∀ w ∈ st.workflows, WfOK minLength w) :
    ∀ w ∈ flushEmit minLength st, WfOK minLength w := by
  intro w hw
  rw [flushEmit] at hw
  split at hw
  · rcases List.mem_append.mp hw with hmem | hmem
    · exact h w hmem
    · rw [List.mem_singleton] at hmem
      subst hmem
      refine ⟨by simpa [mkWorkflow] using ‹_ ∧ _›.1, by simpa [mkWorkflow] using ‹_ ∧ _›.2, rfl⟩
  · exact h w hw

theorem detectStep_ok (minLength : Nat) (maxGap : Int) (st : DetectState)
    (e : E4Event) (h : ∀ w ∈ st.workflows, WfOK minLength w) :
    ∀ w ∈ (detectStep minLength maxGap st e).workflows, WfOK minLength w := by
  intro w hw
  rw [detectStep] at hw
  split at hw
  · exact h w hw
  · exact flushEmit_ok minLength st h w hw

theorem foldl_detectStep_ok (minLength : Nat) (maxGap : Int) (events : List E4Event) :
    ∀ st, (∀ w ∈ st.workflows, WfOK minLength w) →
    ∀ w ∈ (events.foldl (detectStep minLength maxGap) st).workflows, WfOK minLength w := by
  induction events with
  | nil => intro st h; exact h
  | cons e es ih =>
    intro st h
    exact ih (detectStep minLength maxGap st e) (detectStep_ok minLength maxGap st e h)

/-! ## Lemmas on clipboard chains -/

theorem mem_detect_clipboard_chains (events : List E4Event) (g : Int)
    (c : ClipboardChain) (hc : c ∈ detect_clipboard_chains events g) :
    ∃ copyEv pasteEv : E4Event,
      copyEv.clipboard_operation = some "copy" ∧
      pasteEv.clipboard_operation = some "paste" ∧
      copyEv.timestamp < pasteEv.timestamp ∧
      pasteEv.timestamp ≤ copyEv.timestamp + g * 60000 ∧
      c = mkChain copyEv pasteEv := by
  simp only [detect_clipboard_chains, List.mem_flatMap, List.mem_map,
    List.mem_filter, qualifiesPaste, Bool.and_eq_true, decide_eq_true_eq] at hc
  obtain ⟨copyEv, hcopy, pasteEv, ⟨hpaste, hlt, hle⟩, rfl⟩ := hc
  refine ⟨copyEv, pasteEv, ?_, ?_, hlt, hle, rfl⟩
  · simpa using hcopy.2
  · simpa using hpaste.2

/-! ## Claim theorems -/

/-- C1: over any event log and any (sorted, in-range) merged boundary
set — hence any boundary-threshold configuration — the task assembly of
`segment_tasks` yields non-degenerate, contiguous, non-overlapping tasks
with sequential ids whose union covers every event index in `[0, n)`
exactly once; and the full `segment_tasks` pipeline satisfies the same
partition invariant on every log. -/
theorem task_partition_invariant :
    (∀ (n : Nat) (bs : List Nat), bs.Sorted (· ≤ ·) → (∀ b ∈ bs, b < n) →
      IsPartitionOf (assembleTasks n bs) n) ∧
    ∀ log : List E3Event, IsPartitionOf (segment_tasks log) log.length := by
  refine ⟨assembleTasks_partition, fun log => ?_⟩
  exact assembleTasks_partition log.length (mergedBoundaries log)
    (mergedBoundaries_sorted log) (mergedBoundaries_lt log)

/-- Witness for C1 at a concrete boundary set. -/
theorem task_partition_invariant_witness :
    IsPartitionOf (assembleTasks 3 [1]) 3 :=
  task_partition_invariant.1 3 [1] (by decide) (by decide)

/-- C2: every workflow emitted by `detect_cross_tab_workflows`
(including by the final flush) has at least `minLength` events and at
least one tab switch; candidates failing either test are discarded. -/
theorem workflow_validity :
    ∀ (events : List E4Event) (minLength : Nat) (maxGap : Int) (w : Workflow),
      w ∈ detect_cross_tab_workflows events minLength maxGap →
      minLength ≤ w.length ∧ 1 ≤ w.tab_switches ∧ w.length = w.sequence.length := by
  intro events m g w hw
  exact flushEmit_ok m _
    (foldl_detectStep_ok m g events ⟨[], [], none, 0⟩ (by simp)) w hw

/-- Witness for C2 on scenario A. -/
theorem workflow_validity_witness :
    3 ≤ wfA.length ∧ 1 ≤ wfA.tab_switches ∧ wfA.length = wfA.sequence.length :=
  workflow_validity scenA 3 30 wfA (List.mem_singleton.mpr rfl)

/-- C5: the pipeline never yields its result document: on every input
(the empty log included) `run_analysis` raises AttributeError at the
high-order-pattern step, because `discover_high_order_patterns` is not
among the methods the class defines, so the result assembly — and the
wall-clock `analysis_timestamp` it would stamp — is dead code and no
run produces output whose reruns could be compared for byte-identity. -/
theorem run_analysis_always_raises :
    run_analysis [] 0 =
      Except.error (attributeError "discover_high_order_patterns") ∧
    (experimentMethods.contains "discover_high_order_patterns") = false ∧
    ∀ (events : List E4Event) (now : Int),
      run_analysis events now =
        Except.error (attributeError "discover_high_order_patterns") :=
  ⟨rfl, rfl, fun _ _ => rfl⟩

/-- C3: one chain is emitted per copy/paste pair with the paste strictly
after the copy and at most the chain window after it, so every chain's
duration lies in `[0, window]`; on scenario B exactly the t=60000 paste
pairs with the copy and the chain is cross-domain. -/
theorem clipboard_chain_window :
    (∀ (events : List E4Event) (g : Int) (c : ClipboardChain),
        c ∈ detect_clipboard_chains events g →
        0 ≤ c.duration ∧ c.duration ≤ (g : ℚ) * 60) ∧
    (∀ (events : List E4Event) (g : Int),
        (detect_clipboard_chains events g).length =
          ((events.filter fun e => e.clipboard_operation == some "copy").map
            fun cEv =>
              ((events.filter fun e => e.clipboard_operation == some "paste").filter
                (qualifiesPaste cEv g)).length).sum) ∧
    detect_clipboard_chains scenB 10 = [chainB] ∧
    chainB.paste_time = 60000 ∧ chainB.cross_domain = true := by
  refine ⟨?_, ?_, rfl, rfl, rfl⟩
  · intro events g c hc
    obtain ⟨copyEv, pasteEv, _, _, hlt, hle, rfl⟩ :=
      mem_detect_clipboard_chains events g c hc
    simp only [mkChain]
    constructor
    · refine div_nonneg ?_ (by norm_num)
      exact_mod_cast (by omega : (0 : Int) ≤ pasteEv.timestamp - copyEv.timestamp)
    · rw [div_le_iff₀ (by norm_num : (0 : ℚ) < 1000)]
      have : ((pasteEv.timestamp - copyEv.timestamp : Int) : ℚ) ≤
          ((g * 60000 : Int) : ℚ) := by
        exact_mod_cast (by omega : pasteEv.timestamp - copyEv.timestamp ≤ g * 60000)
      push_cast at this ⊢
      linarith
  · intro events g
    simp [detect_clipboard_chains, List.length_flatMap, Function.comp_def]

/-- Witness for C3: the scenario-B chain satisfies the window bound. -/
theorem clipboard_chain_window_witness :
    0 ≤ chainB.duration ∧ chainB.duration ≤ ((10 : Int) : ℚ) * 60 :=
  clipboard_chain_window.1 scenB 10 chainB (List.mem_singleton.mpr rfl)

/-- C10: every emitted chain's `cross_domain` flag is the raw pandas
inequality of the two domain values, so a pair of missing (NaN) domains
is reported as cross-domain, never as same-domain. -/
theorem cross_domain_nan_ne :
    (∀ (events : List E4Event) (g : Int) (c : ClipboardChain),
        c ∈ detect_clipboard_chains events g →
        c.cross_domain = pdNe c.copy_domain c.paste_domain) ∧
    (∀ (events : List E4Event) (g : Int) (c : ClipboardChain),
        c ∈ detect_clipboard_chains events g →
        c.copy_domain = none → c.paste_domain = none → c.cross_domain = true) ∧
    detect_clipboard_chains noDomLog 10 = [chainND] ∧
    chainND.copy_domain = none ∧ chainND.paste_domain = none ∧
    chainND.cross_domain = true := by
  have key : ∀ (events : List E4Event) (g : Int) (c : ClipboardChain),
      c ∈ detect_clipboard_chains events g →
      c.cross_domain = pdNe c.copy_domain c.paste_domain := by
    intro events g c hc
    obtain ⟨copyEv, pasteEv, _, _, _, _, rfl⟩ :=
      mem_detect_clipboard_chains events g c hc
    rfl
  refine ⟨key, ?_, rfl, rfl, rfl, rfl⟩
  intro events g c hc h1 h2
  rw [key events g c hc, h1, h2]
  rfl

/-- Witness for C10: the missing-domain chain is flagged cross-domain. -/
theorem cross_domain_nan_ne_witness :
    chainND.cross_domain = true :=
  cross_domain_nan_ne.2.1 noDomLog 10 chainND (List.mem_singleton.mpr rfl) rfl rfl

/-- C4, corrected: the classifier is the first-match-wins evaluation of
the five ordered rules, is total, and classifies a task with zero
clicks, inputs and form submissions as general_interaction provided it
also has at most 3 distinct urls (the empty task in particular). -/
theorem classify_first_match :
    (∀ task : List E3Event,
        classify_task_type task = firstMatchLabel classifierRules (taskCounts task)) ∧
    (∀ task : List E3Event, clickCount task = 0 → inputCount task = 0 →
        formSubmitCount task = 0 → uniqueUrlCount task ≤ 3 →
        classify_task_type task = "general_interaction") ∧
    classify_task_type [] = "general_interaction" := by
  refine ⟨?_, ?_, rfl⟩
  · intro task
    simp only [classify_task_type, firstMatchLabel, classifierRules, taskCounts,
      decide_eq_true_eq]
  · intro task h1 h2 h3 h4
    simp only [classify_task_type]
    rw [if_neg (by omega), if_neg (by omega), if_neg (by omega),
      if_neg (by omega), if_neg (by omega)]

/-- Witness for C4 on the empty task. -/
theorem classify_first_match_witness :
    classify_task_type [] = "general_interaction" :=
  classify_first_match.2.1 [] rfl rfl rfl (by decide)

/-- Counterexample to C4 as stated: a task with zero clicks, inputs and
form submissions but four distinct urls is classified
browsing_navigation, not general_interaction. -/
theorem classify_zero_counts_cex :
    clickCount urlOnlyTask = 0 ∧ inputCount urlOnlyTask = 0 ∧
    formSubmitCount urlOnlyTask = 0 ∧
    classify_task_type urlOnlyTask = "browsing_navigation" ∧
    classify_task_type urlOnlyTask ≠ "general_interaction" := by decide

/-- C8: the long-pause rule fires exactly at events whose gap from the
previous event strictly exceeds 30000 ms, every such index enters the
merged boundary set, and concretely a 31000 ms gap splits a two-event
log into two tasks while a 30000 ms gap leaves one task. -/
theorem long_pause_rule :
    (∀ (log : List E3Event) (i : Nat), i < log.length →
        (i ∈ longPauseBoundaries log ↔
          0 < i ∧ 30000 < tsAt log i - tsAt log (i - 1))) ∧
    (∀ (log : List E3Event) (i : Nat),
        i ∈ longPauseBoundaries log → i ∈ mergedBoundaries log) ∧
    segment_tasks gap31Log = [⟨0, 0, 1⟩, ⟨1, 1, 2⟩] ∧
    segment_tasks gap30Log = [⟨0, 0, 2⟩] := by
  refine ⟨?_, ?_, by decide, by decide⟩
  · intro log i hi
    cases i with
    | zero => simp [longPauseBoundaries]
    | succ j =>
      simp [longPauseBoundaries, List.mem_filter, List.mem_range, hi]
  · intro log i hmem
    refine mem_mergedBoundaries log i ?_
    simp only [taskBoundaryList, List.mem_append]
    tauto

/-- Witness for C8: the 31000 ms gap is a long-pause boundary and the
30000 ms gap is not. -/
theorem long_pause_rule_witness :
    (1 ∈ longPauseBoundaries gap31Log ↔
      0 < 1 ∧ 30000 < tsAt gap31Log 1 - tsAt gap31Log 0) ∧
    (1 ∈ longPauseBoundaries gap30Log ↔
      0 < 1 ∧ 30000 < tsAt gap30Log 1 - tsAt gap30Log 0) :=
  ⟨long_pause_rule.1 gap31Log 1 (by decide), long_pause_rule.1 gap30Log 1 (by decide)⟩

/-- C7, corrected: the form-submission rule places the boundary at the
index of the form-submission event itself, so that event begins a new
task (the previous task ends just before it); the event after the form
submission stays in the same task unless another rule separates them. -/
theorem form_submit_begins_task :
    ∀ (log : List E3Event) (i : Nat), i < log.length →
      (evAt log i).event_type = "user_action_form_submit" →
      i ∈ mergedBoundaries log ∧ ∃ t ∈ segment_tasks log, t.start = i := by
  intro log i hi hty
  have hmem : i ∈ formSubmitBoundaries log := by
    refine List.mem_filter.mpr ⟨List.mem_range.mpr hi, ?_⟩
    simp [hty]
  have hmerged : i ∈ mergedBoundaries log := by
    refine mem_mergedBoundaries log i ?_
    simp only [taskBoundaryList, List.mem_append]
    tauto
  refine ⟨hmerged, ?_⟩
  exact assembleAux_boundary_start log.length (mergedBoundaries log) 0 0
    (mergedBoundaries_sorted log) (fun x _ => Nat.zero_le x)
    (mergedBoundaries_lt log) i hmerged

/-- Witness for C7 on the click/form-submit/click log. -/
theorem form_submit_begins_task_witness :
    1 ∈ mergedBoundaries formLog ∧ ∃ t ∈ segment_tasks formLog, t.start = 1 :=
  form_submit_begins_task formLog 1 (by decide) rfl

/-- Counterexample to C7 as stated: in the click/form-submit/click log
the form submission at index 1 starts the task `[1, 3)` containing the
following event as well — no task starts at the next index 2, so the
event after the form submission does not begin a new task. -/
theorem form_submit_next_index_cex :
    (evAt formLog 1).event_type = "user_action_form_submit" ∧
    segment_tasks formLog = [⟨0, 0, 1⟩, ⟨1, 1, 3⟩] ∧
    (segment_tasks formLog).countP (fun t => t.start == 2) = 0 := by decide

/-- C6, corrected: whenever workflows exist, `time_saving_potential` is
the sum of the workflow durations times the literal constant 0.7 baked
into `analyze_workflow_efficiency`; no reduction-factor configuration
exists in the code. -/
theorem time_saving_formula :
    ∀ ws : List Workflow, ws ≠ [] →
      ∃ e, analyze_workflow_efficiency ws = some e ∧
        e.time_saving_potential = (ws.map fun w => w.duration).sum * (7 / 10) := by
  intro ws hne
  obtain ⟨a, l, rfl⟩ : ∃ a l, ws = a :: l := by
    cases ws with
    | nil => exact absurd rfl hne
    | cons a l => exact ⟨a, l, rfl⟩
  exact ⟨_, rfl, rfl⟩

/-- Witness for C6 on a singleton workflow list. -/
theorem time_saving_formula_witness :
    ∃ e, analyze_workflow_efficiency [wEx] = some e ∧
      e.time_saving_potential = ([wEx].map fun w => w.duration).sum * (7 / 10) :=
  time_saving_formula [wEx] (List.cons_ne_nil wEx [])

/-- Counterexample to C6 as stated: the code computes 7 for a workflow
of duration 10 s regardless of any configured reduction factor, while
the spec formula with a configured factor of one half yields 5. -/
theorem time_saving_hardcoded_cex :
    (analyze_workflow_efficiency [wEx]).map (fun e => e.time_saving_potential) =
      some 7 ∧
    timeSavingPotential_spec (1 / 2) [wEx] = 5 ∧ ((7 : ℚ) ≠ 5) := by
  refine ⟨?_, ?_, by norm_num⟩
  · show some ((([wEx].map fun w => w.duration).sum) * (7 / 10) : ℚ) = some 7
    norm_num [wEx]
  · norm_num [timeSavingPotential_spec, wEx]

/-- C9, corrected: `analyze_workflow_efficiency` emits no record at all
(and hence no repeatability score) when there are no workflows; when a
record is emitted its score is repeated over unique pattern counts, and
on three identical-signature plus two distinct-signature workflows the
counts are 3 unique, 1 repeated, score one third. -/
theorem repeatability_score_fields :
    analyze_workflow_efficiency [] = none ∧
    (∀ (ws : List Workflow) (e : Efficiency),
        analyze_workflow_efficiency ws = some e →
        e.repeatability_score =
          (e.repeated_patterns : ℚ) / (e.unique_patterns : ℚ)) ∧
    (∃ e, analyze_workflow_efficiency c9Workflows = some e ∧
        e.unique_patterns = 3 ∧ e.repeated_patterns = 1 ∧
        e.repeatability_score = 1 / 3) := by
  refine ⟨rfl, ?_, ?_⟩
  · intro ws e h
    cases ws with
    | nil => simp [analyze_workflow_efficiency] at h
    | cons a l =>
      obtain rfl := Option.some.inj (h : some _ = some e)
      rfl
  · refine ⟨_, rfl, by decide, by decide, ?_⟩
    show ((1 : ℕ) : ℚ) / ((3 : ℕ) : ℚ) = 1 / 3
    norm_num

/-- Witness for C9: the score relation instantiated on a singleton
workflow list. -/
theorem repeatability_score_fields_witness :
    ∃ e, analyze_workflow_efficiency [wEx] = some e ∧
      e.repeatability_score =
        (e.repeated_patterns : ℚ) / (e.unique_patterns : ℚ) :=
  ⟨_, rfl, repeatability_score_fields.2.1 [wEx] _ rfl⟩

/-- Counterexample to C9 as stated: with no workflows the analyzer
returns the empty result, so no repeatability score — 0 or otherwise —
is computed. -/
theorem repeatability_empty_cex :
    analyze_workflow_efficiency [] = none := rfl

end Synapse
